import Mathlib

/-
  Verification development for the Local Market Simulation Engine
  (services/local_sim_adapter.py).

  The engine is embedded shallowly:
  * money, prices and quantities are rationals (Python floats, used here
    only through ordering and field arithmetic);
  * the positions dictionary and the price cache are association lists
    keyed by symbol, mirroring insertion-ordered Python dicts;
  * randomness (slippage draw, mock-price perturbation) and external
    price fetches are explicit parameters of the operations;
  * a raised ValueError is an `Except.error` result;
  * timestamps are naturals (seconds).
-/

set_option linter.unusedVariables false
set_option linter.unnecessarySeqFocus false

namespace PsyQuant

/-- A per-symbol position: `{qty, avg_entry_price}` in the adapter. -/
structure Position where
  qty : ℚ
  avg_entry_price : ℚ
deriving Repr, DecidableEq, Inhabited

abbrev PositionBook := List (String × Position)

/-- Dictionary read: `self.positions.get(symbol)`. -/
def lookupPos (ps : PositionBook) (symbol : String) : Option Position :=
  (ps.find? (fun q => q.1 == symbol)).map Prod.snd

/-- Dictionary write: `self.positions[symbol] = p` (replace in place, else append). -/
def setPos (ps : PositionBook) (symbol : String) (p : Position) : PositionBook :=
  match ps with
  | [] => [(symbol, p)]
  | q :: rest => if q.1 == symbol then (symbol, p) :: rest else q :: setPos rest symbol p

/-- Dictionary delete: `del self.positions[symbol]`. -/
def erasePos (ps : PositionBook) (symbol : String) : PositionBook :=
  match ps with
  | [] => []
  | q :: rest => if q.1 == symbol then rest else q :: erasePos rest symbol

/-- `_update_position(symbol, qty_delta, price)`: weighted-average cost basis,
recomputed only on `qty_delta > 0`; a position reaching quantity zero is deleted. -/
def update_position (ps : PositionBook) (symbol : String) (qty_delta price : ℚ) :
    PositionBook :=
  let pos := (lookupPos ps symbol).getD { qty := 0, avg_entry_price := 0 }
  let new_qty := pos.qty + qty_delta
  if new_qty = 0 then erasePos ps symbol
  else
    let avg :=
      if 0 < qty_delta then
        (pos.qty * pos.avg_entry_price + qty_delta * price) / new_qty
      else pos.avg_entry_price
    setPos ps symbol { qty := new_qty, avg_entry_price := avg }

/-- An order record as built in `submit_order` / mutated in `_match_orders`. -/
structure Order where
  id : Nat
  symbol : String
  qty : ℚ
  side : String
  type : String
  limit_price : Option ℚ
  status : String
  created_at : Nat
  filled_qty : ℚ
  filled_avg_price : ℚ
  filled_at : Option Nat
deriving Repr, DecidableEq, Inhabited

/-- In-memory engine state: `self.cash`, `self.positions`, `self.orders`. -/
structure SimState where
  cash : ℚ
  positions : PositionBook
  orders : List Order
deriving Repr, DecidableEq, Inhabited

/-- `submit_order(symbol, qty, side, type, …)`.
`price0` is the reference price returned by `_get_price`, `slip` the slippage
draw `random.uniform(0.001, 0.005)`.  The pre-slippage funds check for buys
raises `ValueError` (here: `Except.error`); market orders execute immediately
with the slippage-adjusted price; any other type is stored pending as `new`. -/
def submit_order (st : SimState) (oid now : Nat) (price0 slip : ℚ) (symbol : String)
    (qty : ℚ) (side type : String) (limit_price : Option ℚ) :
    Except String (Order × SimState) :=
  if side = "buy" ∧ st.cash < qty * price0 then
    Except.error "Insufficient buying power"
  else if type = "market" then
    let price := if side = "buy" then price0 * (1 + slip) else price0 * (1 - slip)
    let cost := qty * price
    let fs : String × SimState :=
      if side = "buy" then
        if cost ≤ st.cash then
          ("filled", { st with cash := st.cash - cost,
                               positions := update_position st.positions symbol qty price })
        else ("rejected", st)
      else if side = "sell" then
        if qty ≤ ((lookupPos st.positions symbol).getD { qty := 0, avg_entry_price := 0 }).qty then
          ("filled", { st with cash := st.cash + cost,
                               positions := update_position st.positions symbol (-qty) price })
        else ("rejected", st)
      else ("filled", st)
    let o : Order :=
      { id := oid, symbol := symbol, qty := qty, side := side, type := type,
        limit_price := limit_price, status := fs.1, created_at := now,
        filled_qty := qty, filled_avg_price := price,
        filled_at := if fs.1 = "filled" then some now else none }
    Except.ok (o, { fs.2 with orders := fs.2.orders ++ [o] })
  else
    let o : Order :=
      { id := oid, symbol := symbol, qty := qty, side := side, type := type,
        limit_price := limit_price, status := "new", created_at := now,
        filled_qty := 0, filled_avg_price := 0, filled_at := none }
    Except.ok (o, { st with orders := st.orders ++ [o] })

/-- The trigger test of `_match_orders`: only `limit` orders are examined
(`stop`/`stop_limit` never set `triggered`).  A `limit` order whose
`limit_price` is `None` would raise a `TypeError` in the source; such orders
are treated as never triggering here and are outside every claim below. -/
def limit_triggered (o : Order) (price : ℚ) : Bool :=
  if o.type = "limit" then
    match o.limit_price with
    | some lp =>
        if o.side = "buy" then decide (price ≤ lp)
        else if o.side = "sell" then decide (lp ≤ price)
        else false
    | none => false
  else false

/-- One iteration of the `_match_orders` loop for a single order:
non-`new` orders are skipped; triggered orders execute with the same
fund/holding checks as market orders. -/
def match_one (px : String → ℚ) (now : Nat) (cash : ℚ) (ps : PositionBook)
    (o : Order) : ℚ × PositionBook × Order :=
  if o.status = "new" then
    let price := px o.symbol
    if limit_triggered o price then
      let cost := o.qty * price
      if o.side = "buy" then
        if cost ≤ cash then
          (cash - cost, update_position ps o.symbol o.qty price,
           { o with status := "filled", filled_avg_price := price,
                    filled_qty := o.qty, filled_at := some now })
        else (cash, ps, { o with status := "rejected" })
      else if o.side = "sell" then
        if o.qty ≤ ((lookupPos ps o.symbol).getD { qty := 0, avg_entry_price := 0 }).qty then
          (cash + cost, update_position ps o.symbol (-o.qty) price,
           { o with status := "filled", filled_avg_price := price,
                    filled_qty := o.qty, filled_at := some now })
        else (cash, ps, { o with status := "rejected" })
      else (cash, ps, o)
    else (cash, ps, o)
  else (cash, ps, o)

/-- The `_match_orders` loop over the order list, threading cash and positions.
`px` models `_get_price` during the pass (stable per symbol within the
15-second cache TTL). -/
def match_list (px : String → ℚ) (now : Nat) :
    ℚ → PositionBook → List Order → ℚ × PositionBook × List Order
  | cash, ps, [] => (cash, ps, [])
  | cash, ps, o :: rest =>
      let r1 := match_one px now cash ps o
      let r2 := match_list px now r1.1 r1.2.1 rest
      (r2.1, r2.2.1, r1.2.2 :: r2.2.2)

/-- `_match_orders` as a state transformer. -/
def match_orders (px : String → ℚ) (now : Nat) (st : SimState) : SimState :=
  let r := match_list px now st.cash st.positions st.orders
  { cash := r.1, positions := r.2.1, orders := r.2.2 }

/-- The account snapshot returned by `get_account`. -/
structure AccountInfo where
  status : String
  buying_power : ℚ
  cash : ℚ
  portfolio_value : ℚ
  currency : String
  daytrade_count : Nat
  equity : ℚ
deriving Repr, DecidableEq

/-- `Σ qty * current_price` over the positions dictionary. -/
def positions_value (px : String → ℚ) (ps : PositionBook) : ℚ :=
  (ps.map (fun q => q.2.qty * px q.1)).sum

/-- `get_account`: runs a matching pass, then reports cash, buying power
(`cash * 4`) and equity (`cash + Σ qty * current_price`). -/
def get_account (px : String → ℚ) (now : Nat) (st : SimState) : AccountInfo :=
  let st2 := match_orders px now st
  let equity := st2.cash + positions_value px st2.positions
  { status := "ACTIVE", buying_power := st2.cash * 4, cash := st2.cash,
    portfolio_value := equity, currency := "USD", daytrade_count := 0,
    equity := equity }

/-- A price-cache entry `{price, timestamp}`. -/
structure CacheEntry where
  price : ℚ
  timestamp : Nat
deriving Repr, DecidableEq

abbrev PriceCache := List (String × CacheEntry)

/-- Cache read: `self._price_cache.get(symbol)`. -/
def lookupCache (c : PriceCache) (symbol : String) : Option CacheEntry :=
  (c.find? (fun q => q.1 == symbol)).map Prod.snd

/-- Cache write: `self._price_cache[symbol] = e`. -/
def setCache (c : PriceCache) (symbol : String) (e : CacheEntry) : PriceCache :=
  match c with
  | [] => [(symbol, e)]
  | q :: rest => if q.1 == symbol then (symbol, e) :: rest else q :: setCache rest symbol e

/-- The fetch path of `_get_price`: `fetched = some p` models a successful
`yfinance` read, `none` models any exception or a `None` price; on failure the
fallback is the cached price if present, else `100.0 + random.uniform(-1, 1)`
(`mock_rand` being the draw). -/
def get_price_fetch (cache : PriceCache) (symbol : String) (now : Nat)
    (fetched : Option ℚ) (mock_rand : ℚ) : ℚ × PriceCache :=
  match fetched with
  | some p => (p, setCache cache symbol { price := p, timestamp := now })
  | none =>
      match lookupCache cache symbol with
      | some e => (e.price, cache)
      | none => (100 + mock_rand, cache)

/-- `_get_price(symbol)`: serve from the cache while the entry is younger than
15 seconds, otherwise fetch (with fallback).  Total: it never raises. -/
def get_price (cache : PriceCache) (symbol : String) (now : Nat)
    (fetched : Option ℚ) (mock_rand : ℚ) : ℚ × PriceCache :=
  match lookupCache cache symbol with
  | some e =>
      if now - e.timestamp < 15 then (e.price, cache)
      else get_price_fetch cache symbol now fetched mock_rand
  | none => get_price_fetch cache symbol now fetched mock_rand

/-- The cache entry for `symbol` exists and is younger than the 15 s TTL. -/
def cache_fresh (cache : PriceCache) (symbol : String) (now : Nat) : Prop :=
  ∃ e, lookupCache cache symbol = some e ∧ now - e.timestamp < 15

/-- The `_save_state` / `_load_state` round trip applied to a single order.
`_save_state` writes id, symbol, qty, side, type (`order_type`), limit
price, status, the fill price (`filled_avg_price`) and the timestamps to
the DB row; `_load_state` rebuilds the in-memory dict from that row and
normalizes it: `filled_qty` is recomputed as the full quantity for `filled`
orders and 0 for every other status, the `filled_at` key is not read back
at all (so it becomes `None`), and the falsy values 0 for `limit_price`
and `filled_avg_price` are mapped through Python truthiness (`x if x else
default`). -/
def reload_order (o : Order) : Order :=
  { o with
    limit_price :=
      match o.limit_price with
      | some lp => if lp = 0 then none else some lp
      | none => none,
    filled_qty := if o.status = "filled" then o.qty else 0,
    filled_avg_price := if o.filled_avg_price = 0 then 0 else o.filled_avg_price,
    filled_at := none }

/-- `_load_state`, run at the start of every account-scoped operation
(`submit_order`, `get_account`, `get_positions`, `list_orders`), re-reads
the account from the DB.  Cash and positions round-trip unchanged — every
mutating operation ends with `_save_state`, and a raising submission
mutates nothing, so the DB mirrors the in-memory state — but every order
is rebuilt through the `reload_order` normalization. -/
def load_state (st : SimState) : SimState :=
  { st with orders := st.orders.map reload_order }

/-- One engine operation touching the in-memory account state: an order
submission (with its environment: reference price and slippage draw), a
matching pass (as run by `get_account` / `get_positions`), or a bare
reload (as run by `list_orders` and any other read).  Each source
operation begins with the `_load_state` reload. -/
inductive EngineOp where
  | submit (oid now : Nat) (price0 slip : ℚ) (symbol : String) (qty : ℚ)
      (side type : String) (limit_price : Option ℚ)
  | matchPass (px : String → ℚ) (now : Nat)
  | reload

/-- Apply one operation: reload first, then act; a raised `ValueError`
leaves the (re-loaded) state otherwise unchanged. -/
def run_op (st : SimState) : EngineOp → SimState
  | EngineOp.submit oid now price0 slip symbol qty side type lp =>
      match submit_order (load_state st) oid now price0 slip symbol qty side type lp with
      | Except.ok r => r.2
      | Except.error _ => load_state st
  | EngineOp.matchPass px now => match_orders px now (load_state st)
  | EngineOp.reload => load_state st

/-- Apply a sequence of engine operations. -/
def run_ops (st : SimState) (ops : List EngineOp) : SimState :=
  ops.foldl run_op st

/- Fixed strings used in concrete instances below (kept as named constants). -/

def symA : String := "AAPL"
def sideBuy : String := "buy"
def sideSell : String := "sell"
def typeMarket : String := "market"
def typeLimit : String := "limit"
def typeStop : String := "stop"

/- ------------------------------------------------------------------ -/
/- Helper lemmas                                                       -/
/- ------------------------------------------------------------------ -/

lemma lookup_setPos_self (ps : PositionBook) (s : String) (p : Position) :
    lookupPos (setPos ps s p) s = some p := by
  induction ps with
  | nil => simp [setPos, lookupPos, List.find?]
  | cons q rest ih =>
      by_cases h : q.1 == s
      · simp [setPos, h, lookupPos, List.find?]
      · simp only [setPos, h, Bool.false_eq_true, if_false]
        simpa [lookupPos, List.find?, h] using ih

lemma update_position_found (ps : PositionBook) (s : String) (pos : Position)
    (qty_delta price : ℚ) (hlook : lookupPos ps s = some pos)
    (hnz : pos.qty + qty_delta ≠ 0) :
    lookupPos (update_position ps s qty_delta price) s =
      some { qty := pos.qty + qty_delta,
             avg_entry_price :=
               if 0 < qty_delta then
                 (pos.qty * pos.avg_entry_price + qty_delta * price) / (pos.qty + qty_delta)
               else pos.avg_entry_price } := by
  simp only [update_position, hlook, Option.getD_some]
  rw [if_neg hnz]
  exact lookup_setPos_self ..

/- ------------------------------------------------------------------ -/
/- Claim theorems                                                      -/
/- ------------------------------------------------------------------ -/

/-- Claim C3, counterexample.  The claim says a fill whose signed quantity
delta has the opposite sign of the held quantity (reducing exposure) leaves
the average entry price unchanged.  On a short position `(qty = -10,
avg = 100)`, a fill with delta `+5` at price `120` reduces exposure, so the
claim predicts `avg = 100`; `_update_position` tests `qty_delta > 0` instead
and recomputes the average to `80`. -/
theorem C3_short_counterexample :
    lookupPos (update_position [(symA, { qty := -10, avg_entry_price := 100 })] symA 5 120) symA
      = some { qty := -5, avg_entry_price := 80 } ∧
    ¬ lookupPos (update_position [(symA, { qty := -10, avg_entry_price := 100 })] symA 5 120) symA
      = some { qty := -5, avg_entry_price := 100 } := by
  constructor
  · simp +decide [lookupPos, update_position, setPos, erasePos, List.find?, symA]
    norm_num
  · intro h
    simp +decide [lookupPos, update_position, setPos, erasePos, List.find?, symA] at h
    norm_num at h

/-- Claim C3 (amended): `_update_position` recomputes the weighted-average
entry price `(old_qty*old_avg + delta*fill_price) / new_qty` exactly when the
quantity delta is positive (a buy fill) and leaves it unchanged when the
delta is negative (a sell fill), regardless of the sign of the held
quantity; for long positions (held qty ≥ 0, the only ones reachable through
the guarded buy/sell paths) this coincides with the claim's
increasing/reducing-exposure rule.  The concrete example holds: position
`(qty = 10, avg = 100)` plus a buy fill `(qty = 10, price = 120)` yields
`(qty = 20, avg = 110)`. -/
theorem C3_weighted_average (ps : PositionBook) (s : String) (pos : Position)
    (qty_delta price : ℚ) (hlook : lookupPos ps s = some pos)
    (hnz : pos.qty + qty_delta ≠ 0) :
    (lookupPos (update_position ps s qty_delta price) s =
       some { qty := pos.qty + qty_delta,
              avg_entry_price :=
                if 0 < qty_delta then
                  (pos.qty * pos.avg_entry_price + qty_delta * price) / (pos.qty + qty_delta)
                else pos.avg_entry_price }) ∧
    lookupPos (update_position [(symA, { qty := 10, avg_entry_price := 100 })] symA 10 120) symA
      = some { qty := 20, avg_entry_price := 110 } := by
  constructor
  · exact update_position_found ps s pos qty_delta price hlook hnz
  · simp +decide [lookupPos, update_position, setPos, erasePos, List.find?, symA]
    norm_num

/-- Witness for C3: a buy fill on `(qty = 10, avg = 100)` recomputes the
average, and a sell fill (delta `-4`) leaves it unchanged. -/
theorem C3_weighted_average_witness :
    lookupPos (update_position [(symA, { qty := 10, avg_entry_price := 100 })] symA (-4) 50) symA
      = some { qty := 6, avg_entry_price := 100 } ∧
    lookupPos (update_position [(symA, { qty := 10, avg_entry_price := 100 })] symA 10 120) symA
      = some { qty := 20, avg_entry_price := 110 } := by
  have h := C3_weighted_average [(symA, { qty := 10, avg_entry_price := 100 })] symA
    { qty := 10, avg_entry_price := 100 } (-4) 50
    (by simp +decide [lookupPos, List.find?]) (by norm_num)
  refine ⟨?_, h.2⟩
  rw [h.1]
  norm_num

/-- The engine state with 1000 cash and nothing else, used in concrete runs. -/
def st1000 : SimState := { cash := 1000, positions := [], orders := [] }

/-- The order produced by `submit_order(symbol, qty=-5, side="buy",
type="market")` at reference price 100 and slippage draw 0.003: it is
accepted and marked filled. -/
def order_c2 : Order :=
  { id := 0, symbol := symA, qty := -5, side := sideBuy, type := typeMarket,
    limit_price := none, status := "filled", created_at := 0,
    filled_qty := -5, filled_avg_price := 1003/10, filled_at := some 0 }

/-- The state after that negative-quantity buy: cash grew from 1000 to
1501.50 and a short position of -5 shares was opened. -/
def state_c2 : SimState :=
  { cash := 3003/2,
    positions := [(symA, { qty := -5, avg_entry_price := 0 })],
    orders := [order_c2] }

/-- Claim C2, evaluated at the failing input.  The claim says a submission
with a non-positive quantity is rejected before reaching the matching engine
and mutates no state.  `submit_order` performs no quantity (or order-type)
validation: a market buy of quantity -5 at reference price 100 (slippage
0.003) passes the funds check (its cost is negative), is recorded with
status `filled`, credits the negative cost — cash grows from 1000 to
1501.50 — and opens a -5 position. -/
theorem C2_no_validation :
    submit_order st1000 0 0 100 (3/1000) symA (-5) sideBuy typeMarket none
      = Except.ok (order_c2, state_c2) ∧
    order_c2.status = "filled" ∧ state_c2.cash = 3003/2 ∧ st1000.cash < state_c2.cash := by
  refine ⟨?_, rfl, rfl, by norm_num [st1000, state_c2]⟩
  simp +decide [submit_order, update_position, lookupPos, setPos, erasePos,
    List.find?, symA, sideBuy, typeMarket, order_c2, state_c2, st1000]
  norm_num

/-- A pending stop order: side buy, stop(limit) price 50, status new. -/
def order_c6_stop : Order :=
  { id := 7, symbol := symA, qty := 1, side := sideBuy, type := typeStop,
    limit_price := some 50, status := "new", created_at := 0,
    filled_qty := 0, filled_avg_price := 0, filled_at := none }

/-- A pending stop_limit order with the same parameters. -/
def order_c6_stop_limit : Order :=
  { order_c6_stop with id := 8, type := "stop_limit" }

/-- Claim C6, evaluated at the failing input.  The claim says pending stop
and stop_limit orders have their trigger condition evaluated on every
matching pass and, once triggered, execute and become `filled` or
`rejected`.  `_match_orders` tests only `type == "limit"`: a stop (or
stop_limit) buy order with trigger price 50 stays `new` through a full
matching pass whether the current price is 40 or 60, with ample cash
available, so it can never fill or reject. -/
theorem C6_stop_never_matched :
    match_list (fun _ => 40) 1 1000 [] [order_c6_stop, order_c6_stop_limit]
      = (1000, [], [order_c6_stop, order_c6_stop_limit]) ∧
    match_list (fun _ => 60) 1 1000 [] [order_c6_stop, order_c6_stop_limit]
      = (1000, [], [order_c6_stop, order_c6_stop_limit]) ∧
    order_c6_stop.status = "new" ∧ order_c6_stop.type = "stop" ∧
    order_c6_stop_limit.type = "stop_limit" := by
  refine ⟨?_, ?_, rfl, rfl, rfl⟩ <;>
    simp +decide [match_list, match_one, limit_triggered,
      order_c6_stop, order_c6_stop_limit, typeStop, sideBuy]

lemma get_price_not_fresh (cache : PriceCache) (s : String) (now : Nat)
    (fetched : Option ℚ) (r : ℚ) (h : ¬ cache_fresh cache s now) :
    get_price cache s now fetched r = get_price_fetch cache s now fetched r := by
  unfold get_price
  cases hc : lookupCache cache s with
  | none => rfl
  | some e =>
      show (if now - e.timestamp < 15 then (e.price, cache)
            else get_price_fetch cache s now fetched r)
          = get_price_fetch cache s now fetched r
      rw [if_neg]
      intro hfresh
      exact h ⟨e, hc, hfresh⟩

/-- Claim C8, counterexample.  The claim says that on fetch failure with no
cached entry, `_get_price` returns a deterministic mock price.  The mock is
`100.0 + random.uniform(-1, 1)`: two valid draws of the perturbation (0 and
1, both within [-1, 1]) give the different prices 100 and 101. -/
theorem C8_mock_not_deterministic :
    (get_price [] symA 0 none 0).1 = 100 ∧
    (get_price [] symA 0 none 1).1 = 101 ∧
    -1 ≤ (0 : ℚ) ∧ (0 : ℚ) ≤ 1 ∧ -1 ≤ (1 : ℚ) ∧ (1 : ℚ) ≤ 1 ∧
    (get_price [] symA 0 none 0).1 ≠ (get_price [] symA 0 none 1).1 := by
  refine ⟨?_, ?_, by norm_num, by norm_num, by norm_num, by norm_num, ?_⟩ <;>
    simp +decide [get_price, get_price_fetch, lookupCache, List.find?] <;> norm_num

/-- Claim C8 (amended): whenever the cache has no entry younger than the
15-second TTL, `_get_price` never raises; on fetch success it returns the
fetched price and updates the cache entry with `(price, timestamp)`; on
fetch failure it returns the last cached price if one exists — else the mock
price `100.0 + u` with `u` the uniform draw from [-1, 1], not a
deterministic value — and leaves the cache unchanged. -/
theorem C8_price_fallback (cache : PriceCache) (s : String) (now : Nat)
    (p r : ℚ) (h : ¬ cache_fresh cache s now) :
    (get_price cache s now (some p) r
       = (p, setCache cache s { price := p, timestamp := now })) ∧
    (∀ e, lookupCache cache s = some e → get_price cache s now none r = (e.price, cache)) ∧
    (lookupCache cache s = none → get_price cache s now none r = (100 + r, cache)) := by
  refine ⟨?_, ?_, ?_⟩
  · rw [get_price_not_fresh cache s now (some p) r h]
    rfl
  · intro e he
    rw [get_price_not_fresh cache s now none r h]
    simp [get_price_fetch, he]
  · intro he
    rw [get_price_not_fresh cache s now none r h]
    simp [get_price_fetch, he]

/-- Witness for C8: with a stale entry `(42, t=0)` at `now = 20`, a
successful fetch of 50 returns 50 and overwrites the entry; a failed fetch
returns the stale 42 and leaves the cache unchanged; with an empty cache a
failed fetch returns `100 + 1/2`. -/
theorem C8_price_fallback_witness :
    (get_price [(symA, { price := 42, timestamp := 0 })] symA 20 (some 50) (1/2)
       = (50, [(symA, { price := 50, timestamp := 20 })])) ∧
    (get_price [(symA, { price := 42, timestamp := 0 })] symA 20 none (1/2)
       = (42, [(symA, { price := 42, timestamp := 0 })])) ∧
    (get_price [] symA 20 none (1/2) = (201/2, [])) := by
  have hstale : ¬ cache_fresh [(symA, { price := 42, timestamp := 0 })] symA 20 := by
    rintro ⟨e, he, ht⟩
    simp +decide [lookupCache, List.find?] at he
    subst he
    norm_num at ht
  have hempty : ¬ cache_fresh [] symA 20 := by
    rintro ⟨e, he, ht⟩
    simp [lookupCache, List.find?] at he
  have h1 := C8_price_fallback [(symA, { price := 42, timestamp := 0 })] symA 20 50 (1/2) hstale
  have h2 := C8_price_fallback [] symA 20 50 (1/2) hempty
  refine ⟨?_, ?_, ?_⟩
  · rw [h1.1]
    simp +decide [setCache]
  · exact h1.2.1 { price := 42, timestamp := 0 } (by simp +decide [lookupCache, List.find?])
  · rw [h2.2.2 (by simp [lookupCache, List.find?])]
    norm_num

/-- Claim C9: `get_account` (after its matching pass) reports
`buying_power = cash * 4` with the fixed margin multiplier 4, and both
`equity` and `portfolio_value` equal `cash` plus the sum over all open
positions of quantity times the symbol's current price. -/
theorem C9_account_fields (px : String → ℚ) (now : Nat) (st : SimState) :
    (get_account px now st).buying_power = (get_account px now st).cash * 4 ∧
    (get_account px now st).equity =
      (get_account px now st).cash + positions_value px (match_orders px now st).positions ∧
    (get_account px now st).portfolio_value = (get_account px now st).equity := by
  exact ⟨rfl, rfl, rfl⟩

lemma submit_buy_raises (st : SimState) (oid now : Nat) (price0 slip qty : ℚ)
    (s type : String) (lp : Option ℚ) (h : st.cash < qty * price0) :
    submit_order st oid now price0 slip s qty sideBuy type lp =
      Except.error "Insufficient buying power" := by
  unfold submit_order
  rw [if_pos ⟨rfl, h⟩]

lemma submit_buy_market_rejected (st : SimState) (oid now : Nat)
    (price0 slip qty : ℚ) (s : String) (lp : Option ℚ)
    (h1 : qty * price0 ≤ st.cash) (h2 : st.cash < qty * (price0 * (1 + slip))) :
    ∃ o : Order,
      submit_order st oid now price0 slip s qty sideBuy typeMarket lp =
        Except.ok (o, { st with orders := st.orders ++ [o] }) ∧
      o.status = "rejected" ∧ o.filled_qty = qty ∧
      o.filled_avg_price = price0 * (1 + slip) ∧ o.filled_at = none := by
  have hne : ¬ (sideBuy = "buy" ∧ st.cash < qty * price0) := by
    rintro ⟨-, hlt⟩
    exact absurd hlt (not_lt.mpr h1)
  have hcost : ¬ (qty * (price0 * (1 + slip)) ≤ st.cash) := not_le.mpr h2
  refine ⟨{ id := oid, symbol := s, qty := qty, side := sideBuy, type := typeMarket,
            limit_price := lp, status := "rejected", created_at := now,
            filled_qty := qty, filled_avg_price := price0 * (1 + slip),
            filled_at := none }, ?_, rfl, rfl, rfl, rfl⟩
  unfold submit_order
  rw [if_neg hne]
  simp +decide [typeMarket, sideBuy, hcost]

lemma submit_sell_market_rejected (st : SimState) (oid now : Nat)
    (price0 slip qty : ℚ) (s : String) (lp : Option ℚ)
    (h : ((lookupPos st.positions s).getD { qty := 0, avg_entry_price := 0 }).qty < qty) :
    ∃ o : Order,
      submit_order st oid now price0 slip s qty sideSell typeMarket lp =
        Except.ok (o, { st with orders := st.orders ++ [o] }) ∧
      o.status = "rejected" ∧ o.filled_qty = qty ∧
      o.filled_avg_price = price0 * (1 - slip) ∧ o.filled_at = none := by
  have hne : ¬ (sideSell = "buy" ∧ st.cash < qty * price0) := by
    rintro ⟨hb, -⟩
    exact absurd hb (by decide)
  have hqty : ¬ (qty ≤ ((lookupPos st.positions s).getD
      { qty := 0, avg_entry_price := 0 }).qty) := not_le.mpr h
  refine ⟨{ id := oid, symbol := s, qty := qty, side := sideSell, type := typeMarket,
            limit_price := lp, status := "rejected", created_at := now,
            filled_qty := qty, filled_avg_price := price0 * (1 - slip),
            filled_at := none }, ?_, rfl, rfl, rfl, rfl⟩
  unfold submit_order
  rw [if_neg hne]
  simp +decide [typeMarket, sideSell, hqty]

/-- The engine state with 100 cash and nothing else. -/
def st100 : SimState := { cash := 100, positions := [], orders := [] }

/-- Claim C1, counterexample.  The claim says a buy whose cost exceeds cash
makes `submit_order` return an order with status `rejected` rather than
raise.  At cash 100, a market buy of 2 shares at reference price 100 (cost
200 > 100) makes `submit_order` raise
`ValueError("Insufficient buying power…")` — modeled as `Except.error` — so
no order is returned at all. -/
theorem C1_raises_counterexample :
    submit_order st100 0 0 100 (3/1000) symA 2 sideBuy typeMarket none
      = Except.error "Insufficient buying power" := by
  have h := submit_buy_raises st100 0 0 100 (3/1000) 2 symA typeMarket none
  exact h (by norm_num [st100])

/-- Claim C1 (amended): a buy whose cost at the reference (pre-slippage)
price exceeds cash makes `submit_order` raise `ValueError` to its caller
(the HTTP router converts it to a 400 response), leaving cash and positions
unchanged; only a market buy whose reference-price cost fits in cash but
whose slippage-adjusted cost exceeds cash yields a returned order with
status `rejected`, again with cash and positions unchanged (the order is
merely appended to the order list). -/
theorem C1_insufficient_funds (st : SimState) (oid now : Nat)
    (price0 slip qty : ℚ) (s : String) (lp : Option ℚ) :
    (∀ type, st.cash < qty * price0 →
       submit_order st oid now price0 slip s qty sideBuy type lp =
         Except.error "Insufficient buying power") ∧
    (qty * price0 ≤ st.cash → st.cash < qty * (price0 * (1 + slip)) →
       ∃ o : Order,
         submit_order st oid now price0 slip s qty sideBuy typeMarket lp =
           Except.ok (o, { st with orders := st.orders ++ [o] }) ∧
         o.status = "rejected") := by
  constructor
  · intro type h
    exact submit_buy_raises st oid now price0 slip qty s type lp h
  · intro h1 h2
    obtain ⟨o, heq, hstat, -⟩ := submit_buy_market_rejected st oid now price0 slip qty s lp h1 h2
    exact ⟨o, heq, hstat⟩

/-- Witness for C1: at cash 100, a market buy of 2 shares at price 100
raises, and a market buy of 1 share at price 100 with slippage 0.003 (cost
100.30) returns a rejected order with the state unchanged but for the
appended order. -/
theorem C1_insufficient_funds_witness :
    (submit_order st100 1 5 100 (3/1000) symA 2 sideBuy typeMarket none
       = Except.error "Insufficient buying power") ∧
    ∃ o : Order,
      submit_order st100 1 5 100 (3/1000) symA 1 sideBuy typeMarket none
        = Except.ok (o, { st100 with orders := st100.orders ++ [o] }) ∧
      o.status = "rejected" := by
  have h := C1_insufficient_funds st100 1 5 100 (3/1000) 2 symA none
  have h2 := C1_insufficient_funds st100 1 5 100 (3/1000) 1 symA none
  exact ⟨h.1 typeMarket (by norm_num [st100]),
         h2.2 (by norm_num [st100]) (by norm_num [st100])⟩

/-- Claim C10: a market order that passes the pre-slippage funds check but
fails the post-slippage funds check (buy), or fails the holdings check
(sell), is returned with status `rejected` while still reporting
`filled_qty` equal to the full requested quantity and `filled_avg_price`
equal to the slippage-adjusted price, with `filled_at = None`; cash and
positions are untouched (only the order list grows). -/
theorem C10_rejected_fill_fields (st : SimState) (oid now : Nat)
    (price0 slip qty : ℚ) (s : String) (lp : Option ℚ) :
    (qty * price0 ≤ st.cash → st.cash < qty * (price0 * (1 + slip)) →
       ∃ o : Order,
         submit_order st oid now price0 slip s qty sideBuy typeMarket lp =
           Except.ok (o, { st with orders := st.orders ++ [o] }) ∧
         o.status = "rejected" ∧ o.filled_qty = qty ∧
         o.filled_avg_price = price0 * (1 + slip) ∧ o.filled_at = none) ∧
    (((lookupPos st.positions s).getD { qty := 0, avg_entry_price := 0 }).qty < qty →
       ∃ o : Order,
         submit_order st oid now price0 slip s qty sideSell typeMarket lp =
           Except.ok (o, { st with orders := st.orders ++ [o] }) ∧
         o.status = "rejected" ∧ o.filled_qty = qty ∧
         o.filled_avg_price = price0 * (1 - slip) ∧ o.filled_at = none) := by
  constructor
  · intro h1 h2
    exact submit_buy_market_rejected st oid now price0 slip qty s lp h1 h2
  · intro h
    exact submit_sell_market_rejected st oid now price0 slip qty s lp h

/-- Witness for C10: at cash 1000, a market buy of 10 shares at price 100
(pre-slippage cost exactly 1000, post-slippage cost 1003) is rejected with
`filled_qty = 10`, `filled_avg_price = 100.30`, `filled_at = None`; a market
sell of 5 shares with no position is rejected with `filled_qty = 5` and
`filled_avg_price = 99.70`. -/
theorem C10_rejected_fill_fields_witness :
    (∃ o : Order,
       submit_order st1000 1 5 100 (3/1000) symA 10 sideBuy typeMarket none
         = Except.ok (o, { st1000 with orders := st1000.orders ++ [o] }) ∧
       o.status = "rejected" ∧ o.filled_qty = 10 ∧
       o.filled_avg_price = 100 * (1 + 3/1000) ∧ o.filled_at = none) ∧
    (∃ o : Order,
       submit_order st1000 1 5 100 (3/1000) symA 5 sideSell typeMarket none
         = Except.ok (o, { st1000 with orders := st1000.orders ++ [o] }) ∧
       o.status = "rejected" ∧ o.filled_qty = 5 ∧
       o.filled_avg_price = 100 * (1 - 3/1000) ∧ o.filled_at = none) := by
  have h := C10_rejected_fill_fields st1000 1 5 100 (3/1000) 10 symA none
  have h2 := C10_rejected_fill_fields st1000 1 5 100 (3/1000) 5 symA none
  refine ⟨h.1 (by norm_num [st1000]) (by norm_num [st1000]), h2.2 ?_⟩
  simp +decide [st1000, lookupPos, List.find?]

lemma submit_market_price (st : SimState) (oid now : Nat)
    (price0 slip qty : ℚ) (s side : String) (lp : Option ℚ) (o : Order) (st2 : SimState)
    (h : submit_order st oid now price0 slip s qty side typeMarket lp = Except.ok (o, st2)) :
    o.filled_avg_price = if side = "buy" then price0 * (1 + slip) else price0 * (1 - slip) := by
  unfold submit_order at h
  split at h
  · exact Except.noConfusion h
  · split at h
    · simp only [Except.ok.injEq, Prod.mk.injEq] at h
      obtain ⟨ho, -⟩ := h
      rw [← ho]
    · next hm => exact absurd rfl hm

/-- Claim C4: for every market order and every slippage draw `u` in the
fixed range [0.001, 0.005], a buy fills at `reference_price * (1 + u)` —
so its price is between `reference_price` and `reference_price * 1.005` —
and a sell fills at `reference_price * (1 - u)` — so its price is between
`reference_price * 0.995` and `reference_price` (reference prices being
nonnegative). -/
theorem C4_slippage_bounds (st : SimState) (oid now : Nat)
    (price0 slip qty : ℚ) (s : String) (lp : Option ℚ)
    (hs1 : 1/1000 ≤ slip) (hs2 : slip ≤ 5/1000) (hp : 0 ≤ price0) :
    (∀ o st2, submit_order st oid now price0 slip s qty sideBuy typeMarket lp
        = Except.ok (o, st2) →
       o.filled_avg_price = price0 * (1 + slip) ∧
       price0 ≤ o.filled_avg_price ∧ o.filled_avg_price ≤ price0 * (1005/1000)) ∧
    (∀ o st2, submit_order st oid now price0 slip s qty sideSell typeMarket lp
        = Except.ok (o, st2) →
       o.filled_avg_price = price0 * (1 - slip) ∧
       o.filled_avg_price ≤ price0 ∧ price0 * (995/1000) ≤ o.filled_avg_price) := by
  have h0 : (0 : ℚ) ≤ slip := le_trans (by norm_num) hs1
  have h5 : (0 : ℚ) ≤ 5/1000 - slip := by linarith
  have hb1 : price0 ≤ price0 * (1 + slip) := by nlinarith [mul_nonneg hp h0]
  have hb2 : price0 * (1 + slip) ≤ price0 * (1005/1000) := by nlinarith [mul_nonneg hp h5]
  have hc1 : price0 * (1 - slip) ≤ price0 := by nlinarith [mul_nonneg hp h0]
  have hc2 : price0 * (995/1000) ≤ price0 * (1 - slip) := by nlinarith [mul_nonneg hp h5]
  constructor
  · intro o st2 heq
    have hfp := submit_market_price st oid now price0 slip qty s sideBuy lp o st2 heq
    rw [hfp, if_pos (show sideBuy = "buy" from rfl)]
    exact ⟨rfl, hb1, hb2⟩
  · intro o st2 heq
    have hfp := submit_market_price st oid now price0 slip qty s sideSell lp o st2 heq
    rw [hfp, if_neg (show ¬ sideSell = "buy" by decide)]
    exact ⟨rfl, hc1, hc2⟩

/-- The filled order of the C4 witness: market buy of 1 share at reference
price 100 with slippage draw 0.003, filling at 100.30. -/
def order_c4 : Order :=
  { id := 1, symbol := symA, qty := 1, side := sideBuy, type := typeMarket,
    limit_price := none, status := "filled", created_at := 5,
    filled_qty := 1, filled_avg_price := 1003/10, filled_at := some 5 }

/-- The state after the C4 witness buy: cash 899.70, one share at 100.30. -/
def state_c4 : SimState :=
  { cash := 8997/10,
    positions := [(symA, { qty := 1, avg_entry_price := 1003/10 })],
    orders := [order_c4] }

/-- Witness for C4: the 0.003 draw lies in [0.001, 0.005] and the concrete
buy fill lands at 100.30, inside [100, 100.5]. -/
theorem C4_slippage_bounds_witness :
    submit_order st1000 1 5 100 (3/1000) symA 1 sideBuy typeMarket none
      = Except.ok (order_c4, state_c4) ∧
    100 ≤ order_c4.filled_avg_price ∧
    order_c4.filled_avg_price ≤ 100 * (1005/1000) := by
  have heq : submit_order st1000 1 5 100 (3/1000) symA 1 sideBuy typeMarket none
      = Except.ok (order_c4, state_c4) := by
    simp +decide [submit_order, update_position, lookupPos, setPos, erasePos,
      List.find?, symA, sideBuy, typeMarket, order_c4, state_c4, st1000]
    norm_num
  have h := (C4_slippage_bounds st1000 1 5 100 (3/1000) 1 symA none
    (by norm_num) (by norm_num) (by norm_num)).1 order_c4 state_c4 heq
  exact ⟨heq, h.2.1, h.2.2⟩

lemma limit_triggered_buy (o : Order) (price lp : ℚ)
    (htype : o.type = "limit") (hlp : o.limit_price = some lp) (hside : o.side = "buy") :
    limit_triggered o price = decide (price ≤ lp) := by
  simp [limit_triggered, htype, hlp, hside]

lemma limit_triggered_sell (o : Order) (price lp : ℚ)
    (htype : o.type = "limit") (hlp : o.limit_price = some lp) (hside : o.side = "sell") :
    limit_triggered o price = decide (lp ≤ price) := by
  simp +decide [limit_triggered, htype, hlp, hside]

/-- Claim C5: in a matching pass, a pending (`new`) buy limit order triggers
exactly when `current_price <= limit_price` and a sell limit exactly when
`current_price >= limit_price`; an untriggered order is left completely
unchanged (in particular a buy limit with `limit_price` below the current
price stays `new`), and a triggered order with sufficient funds (buy) or
holdings (sell) transitions to `filled` with `filled_price` equal to the
current price — for a buy, therefore, `filled_price <= limit_price`. -/
theorem C5_limit_trigger (px : String → ℚ) (now : Nat) (cash : ℚ) (ps : PositionBook)
    (o : Order) (lp : ℚ) (hnew : o.status = "new") (htype : o.type = "limit")
    (hlp : o.limit_price = some lp) :
    (o.side = "buy" → lp < px o.symbol →
       match_one px now cash ps o = (cash, ps, o)) ∧
    (o.side = "buy" → px o.symbol ≤ lp → o.qty * px o.symbol ≤ cash →
       (match_one px now cash ps o).2.2.status = "filled" ∧
       (match_one px now cash ps o).2.2.filled_avg_price = px o.symbol ∧
       (match_one px now cash ps o).2.2.filled_avg_price ≤ lp) ∧
    (o.side = "sell" → px o.symbol < lp →
       match_one px now cash ps o = (cash, ps, o)) ∧
    (o.side = "sell" → lp ≤ px o.symbol →
       o.qty ≤ ((lookupPos ps o.symbol).getD { qty := 0, avg_entry_price := 0 }).qty →
       (match_one px now cash ps o).2.2.status = "filled" ∧
       (match_one px now cash ps o).2.2.filled_avg_price = px o.symbol) := by
  refine ⟨?_, ?_, ?_, ?_⟩
  · intro hside hgt
    have htrig : limit_triggered o (px o.symbol) = false := by
      rw [limit_triggered_buy o (px o.symbol) lp htype hlp hside]
      exact decide_eq_false (not_le.mpr hgt)
    simp [match_one, hnew, htrig]
  · intro hside hle hfund
    have htrig : limit_triggered o (px o.symbol) = true := by
      rw [limit_triggered_buy o (px o.symbol) lp htype hlp hside]
      exact decide_eq_true hle
    refine ⟨?_, ?_, ?_⟩ <;>
      simp [match_one, hnew, htrig, hside, hfund, hle]
  · intro hside hlt
    have htrig : limit_triggered o (px o.symbol) = false := by
      rw [limit_triggered_sell o (px o.symbol) lp htype hlp hside]
      exact decide_eq_false (not_le.mpr hlt)
    simp [match_one, hnew, htrig]
  · intro hside hge hqty
    have htrig : limit_triggered o (px o.symbol) = true := by
      rw [limit_triggered_sell o (px o.symbol) lp htype hlp hside]
      exact decide_eq_true hge
    constructor <;>
      simp +decide [match_one, hnew, htrig, hside, hqty]

/-- A pending buy limit order at limit price 50. -/
def order_c5 : Order :=
  { id := 2, symbol := symA, qty := 1, side := sideBuy, type := typeLimit,
    limit_price := some 50, status := "new", created_at := 0,
    filled_qty := 0, filled_avg_price := 0, filled_at := none }

/-- Witness for C5: with the price at 60 (above the 50 limit) the buy limit
order is untouched and stays `new`; with the price at 40 it fills at 40,
which is at most the 50 limit. -/
theorem C5_limit_trigger_witness :
    match_one (fun _ => 60) 3 1000 [] order_c5 = (1000, [], order_c5) ∧
    order_c5.status = "new" ∧
    (match_one (fun _ => 40) 3 1000 [] order_c5).2.2.status = "filled" ∧
    (match_one (fun _ => 40) 3 1000 [] order_c5).2.2.filled_avg_price ≤ 50 := by
  have h1 := C5_limit_trigger (fun _ => 60) 3 1000 [] order_c5 50 rfl rfl rfl
  have h2 := C5_limit_trigger (fun _ => 40) 3 1000 [] order_c5 50 rfl rfl rfl
  have hfill := h2.2.1 rfl (by norm_num) (by norm_num [order_c5])
  exact ⟨h1.1 rfl (by norm_num), rfl, hfill.1, hfill.2.2⟩

lemma match_one_skip (px : String → ℚ) (now : Nat) (cash : ℚ) (ps : PositionBook)
    (o : Order) (h : ¬ o.status = "new") :
    match_one px now cash ps o = (cash, ps, o) := by
  simp [match_one, h]

lemma match_list_stable (px : String → ℚ) (now : Nat) :
    ∀ (os : List Order) (cash : ℚ) (ps : PositionBook) (i : Nat) (o : Order),
      os[i]? = some o → ¬ o.status = "new" →
      (match_list px now cash ps os).2.2[i]? = some o := by
  intro os
  induction os with
  | nil =>
      intro cash ps i o hi _
      simp at hi
  | cons a rest ih =>
      intro cash ps i o hi hterm
      cases i with
      | zero =>
          simp only [List.getElem?_cons_zero, Option.some.injEq] at hi
          subst hi
          simp [match_list, match_one_skip px now cash ps a hterm]
      | succ n =>
          simp only [List.getElem?_cons_succ] at hi
          simp only [match_list, List.getElem?_cons_succ]
          exact ih _ _ n o hi hterm

lemma submit_order_ok_orders (st : SimState) (oid now : Nat)
    (price0 slip qty : ℚ) (s side type : String) (lp : Option ℚ) (o : Order) (st2 : SimState)
    (h : submit_order st oid now price0 slip s qty side type lp = Except.ok (o, st2)) :
    st2.orders = st.orders ++ [o] := by
  unfold submit_order at h
  split at h
  · exact Except.noConfusion h
  · split at h
    · simp only [Except.ok.injEq, Prod.mk.injEq] at h
      obtain ⟨ho, hst⟩ := h
      rw [← hst, ← ho]
      split_ifs <;> rfl
    · simp only [Except.ok.injEq, Prod.mk.injEq] at h
      obtain ⟨ho, hst⟩ := h
      rw [← hst, ← ho]

lemma if_zero_id (x : ℚ) : (if x = 0 then 0 else x) = x := by
  split_ifs with h
  · exact h.symm
  · rfl

lemma reload_order_idem (o : Order) : reload_order (reload_order o) = reload_order o := by
  cases h : o.limit_price with
  | none => simp [reload_order, h, if_zero_id]
  | some lp =>
      by_cases hz : lp = 0 <;> simp [reload_order, h, hz, if_zero_id]

lemma load_state_get (st : SimState) (i : Nat) (x : Order)
    (hi : st.orders[i]? = some x) :
    (load_state st).orders[i]? = some (reload_order x) := by
  simp [load_state, List.getElem?_map, hi]

lemma run_op_reload_get (st : SimState) (op : EngineOp) (i : Nat) (x : Order)
    (hi : st.orders[i]? = some x) (hterm : ¬ x.status = "new") :
    (run_op st op).orders[i]? = some (reload_order x) := by
  have hload := load_state_get st i x hi
  have hterm2 : ¬ (reload_order x).status = "new" := hterm
  cases op with
  | submit oid now price0 slip s qty side type lp =>
      cases heq : submit_order (load_state st) oid now price0 slip s qty side type lp with
      | error e =>
          show (match submit_order (load_state st) oid now price0 slip s qty side type lp with
                | Except.ok r => r.2
                | Except.error _ => load_state st).orders[i]? = some (reload_order x)
          rw [heq]
          exact hload
      | ok r =>
          show (match submit_order (load_state st) oid now price0 slip s qty side type lp with
                | Except.ok r => r.2
                | Except.error _ => load_state st).orders[i]? = some (reload_order x)
          rw [heq]
          show r.2.orders[i]? = some (reload_order x)
          rw [submit_order_ok_orders (load_state st) oid now price0 slip qty s side type lp
            r.1 r.2 (by rw [heq])]
          rw [List.getElem?_append_left (List.getElem?_eq_some.mp hload).1]
          exact hload
  | matchPass px now =>
      exact match_list_stable px now (load_state st).orders (load_state st).cash
        (load_state st).positions i (reload_order x) hload hterm2
  | reload => exact hload

/-- A rejected market order as `submit_order` returns it (see C10): it
still reports the full `filled_qty = 10` and the slippage-adjusted price. -/
def order_c7r : Order :=
  { id := 11, symbol := symA, qty := 10, side := sideBuy, type := typeMarket,
    limit_price := none, status := "rejected", created_at := 0,
    filled_qty := 10, filled_avg_price := 1003/10, filled_at := none }

/-- A filled market order carrying its fill timestamp. -/
def order_c7f : Order :=
  { id := 12, symbol := symA, qty := 1, side := sideBuy, type := typeMarket,
    limit_price := none, status := "filled", created_at := 0,
    filled_qty := 1, filled_avg_price := 100, filled_at := some 3 }

/-- The engine state holding both terminal orders. -/
def st_c7x : SimState :=
  { cash := 1000, positions := [(symA, { qty := 1, avg_entry_price := 100 })],
    orders := [order_c7r, order_c7f] }

/-- Claim C7, counterexample.  The claim says that once an order is
terminal, no later operation changes any of its fields.  But every source
operation starts with the `_load_state` reload, which rebuilds the order
list from the DB with normalization: after a single read, the rejected
order's `filled_qty` has dropped from 10 to 0 and the filled order's
`filled_at` from its timestamp to `None` — both records differ from the
originals. -/
theorem C7_reload_counterexample :
    order_c7r.status = "rejected" ∧ order_c7f.status = "filled" ∧
    (run_ops st_c7x [EngineOp.reload]).orders[0]?
      = some { order_c7r with filled_qty := 0 } ∧
    ¬ (run_ops st_c7x [EngineOp.reload]).orders[0]? = some order_c7r ∧
    (run_ops st_c7x [EngineOp.reload]).orders[1]?
      = some { order_c7f with filled_at := none } ∧
    ¬ (run_ops st_c7x [EngineOp.reload]).orders[1]? = some order_c7f := by
  refine ⟨rfl, rfl, ?_, ?_, ?_, ?_⟩ <;>
    simp +decide [run_ops, run_op, load_state, reload_order,
      order_c7r, order_c7f, st_c7x]

/-- Claim C7 (amended): a terminal (`filled` or `rejected`) order never
changes status again and never returns to `new`, under every sequence of
engine operations including the `_load_state` reload each operation begins
with; its identity and economic fields (id, symbol, qty, side, type,
filled_avg_price, created_at) are likewise frozen.  The record as a whole,
however, is not: the reload normalizes the remaining fields, so the order
at its position is always either the original record or its reload normal
form — in which `filled_qty` is the full quantity for `filled` orders and
0 otherwise, and `filled_at` is `None`. -/
theorem C7_terminal_status_frozen (st : SimState) (ops : List EngineOp) (i : Nat) (o : Order)
    (hi : st.orders[i]? = some o)
    (hterm : o.status = "filled" ∨ o.status = "rejected") :
    ∃ o', (run_ops st ops).orders[i]? = some o' ∧
      (o' = o ∨ o' = reload_order o) ∧
      o'.status = o.status ∧ o'.id = o.id ∧ o'.symbol = o.symbol ∧
      o'.qty = o.qty ∧ o'.side = o.side ∧ o'.type = o.type ∧
      o'.filled_avg_price = o.filled_avg_price ∧ o'.created_at = o.created_at := by
  have hne : ¬ o.status = "new" := by
    rcases hterm with h | h <;> rw [h] <;> decide
  have key : ∀ (st' : SimState),
      (st'.orders[i]? = some o ∨ st'.orders[i]? = some (reload_order o)) →
      ((run_ops st' ops).orders[i]? = some o ∨
       (run_ops st' ops).orders[i]? = some (reload_order o)) := by
    induction ops with
    | nil =>
        intro st' h
        exact h
    | cons op rest ih =>
        intro st' h
        show (run_ops (run_op st' op) rest).orders[i]? = some o ∨
          (run_ops (run_op st' op) rest).orders[i]? = some (reload_order o)
        apply ih
        right
        rcases h with h | h
        · exact run_op_reload_get st' op i o h hne
        · rw [← reload_order_idem o]
          exact run_op_reload_get st' op i (reload_order o) h hne
  rcases key st (Or.inl hi) with h | h
  · exact ⟨o, h, Or.inl rfl, rfl, rfl, rfl, rfl, rfl, rfl, rfl, rfl⟩
  · exact ⟨reload_order o, h, Or.inr rfl, rfl, rfl, rfl, rfl, rfl, rfl,
      if_zero_id o.filled_avg_price, rfl⟩

/-- A terminal (filled) order used in the C7 witness. -/
def order_c7 : Order :=
  { id := 3, symbol := symA, qty := 1, side := sideBuy, type := typeMarket,
    limit_price := none, status := "filled", created_at := 0,
    filled_qty := 1, filled_avg_price := 100, filled_at := some 0 }

/-- The engine state holding that filled order. -/
def st_c7 : SimState :=
  { cash := 900, positions := [(symA, { qty := 1, avg_entry_price := 100 })],
    orders := [order_c7] }

/-- Witness for C7: after a bare reload, a matching pass at a price of 50
and a fresh market-buy submission, the previously filled order still sits
at its position, equal to the original or its reload normal form, with
status, id, symbol, qty, side, type, fill price and creation time
unchanged. -/
theorem C7_terminal_status_frozen_witness :
    ∃ o', (run_ops st_c7
        [EngineOp.reload,
         EngineOp.matchPass (fun _ => 50) 9,
         EngineOp.submit 4 9 50 (3/1000) symA 1 sideBuy typeMarket none]).orders[0]?
        = some o' ∧
      (o' = order_c7 ∨ o' = reload_order order_c7) ∧
      o'.status = order_c7.status ∧ o'.id = order_c7.id ∧ o'.symbol = order_c7.symbol ∧
      o'.qty = order_c7.qty ∧ o'.side = order_c7.side ∧ o'.type = order_c7.type ∧
      o'.filled_avg_price = order_c7.filled_avg_price ∧
      o'.created_at = order_c7.created_at := by
  exact C7_terminal_status_frozen st_c7 _ 0 order_c7 rfl (Or.inl rfl)

end PsyQuant
